import Mathlib

/-!
Verification of the config-file component of the `rusoto` credential crate
(`rusoto/credential/src/config/config_file.rs`), embedded shallowly: the
`ini` crate's data is an association list of sections, each section an
association list of key-value pairs; fallible file access is a map from
paths to parse outcomes.
-/

set_option autoImplicit false

/-- The `ini` crate's `Properties`: the key-value pairs of one INI section,
in file order. -/
structure Properties where
  entries : List (String × String)
deriving DecidableEq

/-- `Properties::get`: the value bound to the first exactly matching key. -/
def Properties.get (p : Properties) (k : String) : Option String :=
  (p.entries.find? (fun e => decide (e.1 = k))).map (fun e => e.2)

/-- The `ini` crate's `Ini`: parsed sections in file order. A section name of
`none` is the general (unnamed) section. -/
structure Ini where
  sections : List (Option String × Properties)
deriving DecidableEq

/-- `Ini::section(Some(name))`: the first section whose name is exactly
`name` (`section` is a reserved word in Lean, hence the different name). -/
def Ini.sectionNamed (ini : Ini) (name : String) : Option Properties :=
  (ini.sections.find? (fun s => decide (s.1 = some name))).map (fun s => s.2)

/-- `CredentialsError` from the crate root: carries a message string. -/
structure CredentialsError where
  message : String
deriving DecidableEq

/-- `CredentialsError::new`. -/
def CredentialsError.new (message : String) : CredentialsError :=
  ⟨message⟩

/-- Modelled from the spec: `try_parse_ini` lives in the parent config module,
which is not under `src/`. Per the spec it reads the file at a path and parses
it as INI, failing with the underlying cause (absent, unreadable, or invalid
file) as an error string. The file system is modelled as a map from paths to
parse outcomes. -/
def try_parse_ini (fs : String → Except String Ini) (location : String) : Except String Ini :=
  fs location

/-- `try_parse_config_ini`: wraps any parse failure in a `CredentialsError`
whose message prepends a fixed config-file phrase to the cause. -/
def try_parse_config_ini (fs : String → Except String Ini) (location : String) :
    Except CredentialsError Ini :=
  match try_parse_ini fs location with
  | .ok ini => .ok ini
  | .error e =>
    .error (CredentialsError.new ("An error occurred parsing the config file: " ++ e))

/-- The AWS config file: `ConfigFile` owns the parsed `Ini`. -/
structure ConfigFile where
  ini : Ini
deriving DecidableEq

/-- `ConfigFile::new`: parses the config file at the given location. -/
def ConfigFile.new (fs : String → Except String Ini) (location : String) :
    Except CredentialsError ConfigFile :=
  match try_parse_config_ini fs location with
  | .ok ini => .ok ⟨ini⟩
  | .error e => .error e

/-- Modelled from the spec: an environment snapshot, holding the dedicated
config-file override variable (`AWS_CONFIG_FILE`) and the home directory. -/
structure Env where
  aws_config_file : Option String
  home : Option String
deriving DecidableEq

/-- Modelled from the spec: `default_config_location` lives in the parent
config module, which is not under `src/`. Per the spec the default config-file
path lies under the user's home directory and is overridable by the
`AWS_CONFIG_FILE` environment variable; with no home directory it fails. -/
def default_config_location (env : Env) : Except CredentialsError String :=
  match env.aws_config_file with
  | some p => .ok p
  | none =>
    match env.home with
    | some h => .ok (h ++ "/.aws/config")
    | none => .error (CredentialsError.new "Failed to determine home directory.")

/-- Modelled from the spec: `default_profile_name` lives in the parent config
module, which is not under `src/`. Per the spec, `default_profile()` is sugar
for `profile("default")`. -/
def default_profile_name : String := "default"

/-- `ConfigFile::new_default`: parses the config file at the default
location. -/
def ConfigFile.new_default (env : Env) (fs : String → Except String Ini) :
    Except CredentialsError ConfigFile :=
  match default_config_location env with
  | .ok location => ConfigFile.new fs location
  | .error e => .error e

/-- A profile defined in the AWS config file: a borrowed view of one
section's properties. -/
structure ConfigProfile where
  properties : Properties
deriving DecidableEq

/-- `From<&Properties> for ConfigProfile` (`from` is reserved in Lean). -/
def ConfigProfile.ofProperties (properties : Properties) : ConfigProfile :=
  ⟨properties⟩

/-- `ConfigFile::profile`: the section named `profile_name`, falling back via
`or_else` to the one named `profile <profile_name>` (the config-file naming
convention). -/
def ConfigFile.profile (c : ConfigFile) (profile_name : String) : Option ConfigProfile :=
  ((c.ini.sectionNamed profile_name).orElse
      (fun _ => c.ini.sectionNamed ("profile " ++ profile_name))).map
    ConfigProfile.ofProperties

/-- `ConfigFile::default_profile`. -/
def ConfigFile.default_profile (c : ConfigFile) : Option ConfigProfile :=
  c.profile default_profile_name

/-- `ConfigProfile::region`. -/
def ConfigProfile.region (p : ConfigProfile) : Option String :=
  p.properties.get "region"

/-- `ConfigProfile::credential_process`. -/
def ConfigProfile.credential_process (p : ConfigProfile) : Option String :=
  p.properties.get "credential_process"

/-- C1: `profile(x)` returns the bare section `x` when it exists; otherwise it
is exactly the lookup of section `profile x` (so that section when it exists,
and none otherwise). With both present, the bare section wins. -/
theorem profile_lookup_order (c : ConfigFile) (x : String) :
    (∀ ps, c.ini.sectionNamed x = some ps →
      c.profile x = some (ConfigProfile.ofProperties ps))
    ∧ (c.ini.sectionNamed x = none →
      c.profile x = (c.ini.sectionNamed ("profile " ++ x)).map ConfigProfile.ofProperties) := by
  unfold ConfigFile.profile
  constructor
  · intro ps h
    rw [h]
    rfl
  · intro h
    rw [h]
    rfl

/-- A store holding both a bare section `x` and a section `profile x`. -/
def bothFormsStore : ConfigFile :=
  ⟨⟨[(some "x", ⟨[("region", "r1")]⟩), (some "profile x", ⟨[("region", "r2")]⟩)]⟩⟩

/-- Witness for C1: on a store holding both forms, the bare section is
returned. -/
theorem profile_lookup_order_witness :
    bothFormsStore.profile "x" = some (ConfigProfile.ofProperties ⟨[("region", "r1")]⟩) :=
  (profile_lookup_order bothFormsStore "x").1 ⟨[("region", "r1")]⟩ (by decide)

/-- C2: `default_profile()` returns exactly the result of
`profile("default")`. -/
theorem default_profile_eq_profile_default (c : ConfigFile) :
    c.default_profile = c.profile "default" := rfl

/-- A found section is a member of the store with exactly the looked-up
name. -/
theorem Ini.sectionNamed_spec (ini : Ini) (name : String) (ps : Properties)
    (h : ini.sectionNamed name = some ps) :
    ∃ s, s ∈ ini.sections ∧ s.1 = some name ∧ s.2 = ps := by
  unfold Ini.sectionNamed at h
  cases hf : ini.sections.find? (fun s => decide (s.1 = some name)) with
  | none => rw [hf] at h; exact Option.noConfusion h
  | some s =>
    rw [hf] at h
    have h2 : s.2 = ps := by simpa using h
    refine ⟨s, List.mem_of_find?_eq_some hf, ?_, h2⟩
    simpa using List.find?_some hf

/-- Lookup misses when no section bears the name. -/
theorem Ini.sectionNamed_eq_none (ini : Ini) (name : String)
    (h : ∀ s ∈ ini.sections, s.1 ≠ some name) :
    ini.sectionNamed name = none := by
  unfold Ini.sectionNamed
  rw [List.find?_eq_none.mpr]
  · rfl
  · intro s hs
    simpa using h s hs

/-- Key lookup misses when no entry bears the key. -/
theorem Properties.get_eq_none (p : Properties) (k : String)
    (h : ∀ kv ∈ p.entries, kv.1 ≠ k) :
    p.get k = none := by
  unfold Properties.get
  rw [List.find?_eq_none.mpr]
  · rfl
  · intro kv hkv
    simpa using h kv hkv

/-- C3: when the underlying file access or INI parse fails, `ConfigFile::new`
returns an error, not a store, and the error's message contains the
underlying cause (as a suffix of the message). -/
theorem new_error_includes_cause (fs : String → Except String Ini) (loc e : String)
    (h : fs loc = .error e) :
    ∃ msg, ConfigFile.new fs loc = .error (CredentialsError.new msg)
      ∧ ∃ p, msg = p ++ e := by
  refine ⟨"An error occurred parsing the config file: " ++ e, ?_,
    "An error occurred parsing the config file: ", rfl⟩
  unfold ConfigFile.new try_parse_config_ini try_parse_ini
  rw [h]

/-- A file system on which every path fails to parse. -/
def failingFS : String → Except String Ini := fun _ => .error "boom"

/-- Witness for C3 at a concrete failing path. -/
theorem new_error_includes_cause_witness :
    ∃ msg, ConfigFile.new failingFS "p" = .error (CredentialsError.new msg)
      ∧ ∃ p, msg = p ++ "boom" :=
  new_error_includes_cause failingFS "p" "boom" rfl

/-- C9: on any parse failure, the error message is exactly the fixed phrase
followed by the underlying error's text. -/
theorem new_error_message_exact (fs : String → Except String Ini) (loc e : String)
    (h : fs loc = .error e) :
    ConfigFile.new fs loc =
      .error (CredentialsError.new ("An error occurred parsing the config file: " ++ e)) := by
  unfold ConfigFile.new try_parse_config_ini try_parse_ini
  rw [h]

/-- Witness for C9 at a concrete failing path. -/
theorem new_error_message_exact_witness :
    ConfigFile.new failingFS "q" =
      .error (CredentialsError.new ("An error occurred parsing the config file: " ++ "boom")) :=
  new_error_message_exact failingFS "q" "boom" rfl

/-- C4: any section `profile(x)` returns comes from the store and bears
exactly the name `x` or `profile x`, character for character; a store whose
only section differs just in letter case yields none. -/
theorem profile_lookup_case_sensitive :
    (∀ (c : ConfigFile) (x : String) (p : ConfigProfile), c.profile x = some p →
      ∃ s, s ∈ c.ini.sections ∧ (s.1 = some x ∨ s.1 = some ("profile " ++ x))
        ∧ p = ConfigProfile.ofProperties s.2)
    ∧ ConfigFile.profile ⟨⟨[(some "Default", ⟨[("region", "r")]⟩)]⟩⟩ "default" = none := by
  constructor
  · intro c x p h
    unfold ConfigFile.profile at h
    cases hb : c.ini.sectionNamed x with
    | some ps =>
      rw [hb] at h
      have h' : ConfigProfile.ofProperties ps = p := by simpa [Option.orElse] using h
      obtain ⟨s, hmem, hname, hps⟩ := Ini.sectionNamed_spec c.ini x ps hb
      exact ⟨s, hmem, Or.inl hname, by rw [← h', hps]⟩
    | none =>
      rw [hb] at h
      cases hf : c.ini.sectionNamed ("profile " ++ x) with
      | none => rw [hf] at h; simp [Option.orElse] at h
      | some ps =>
        rw [hf] at h
        have h' : ConfigProfile.ofProperties ps = p := by simpa [Option.orElse] using h
        obtain ⟨s, hmem, hname, hps⟩ := Ini.sectionNamed_spec c.ini ("profile " ++ x) ps hf
        exact ⟨s, hmem, Or.inr hname, by rw [← h', hps]⟩
  · decide

/-- Witness for C4: the general clause applied at a store with one section
named `foo`. -/
theorem profile_lookup_case_sensitive_witness :
    ∃ s, s ∈ (⟨⟨[(some "foo", ⟨[("region", "r")]⟩)]⟩⟩ : ConfigFile).ini.sections
      ∧ (s.1 = some "foo" ∨ s.1 = some ("profile " ++ "foo"))
      ∧ ConfigProfile.ofProperties ⟨[("region", "r")]⟩ = ConfigProfile.ofProperties s.2 :=
  profile_lookup_case_sensitive.1 ⟨⟨[(some "foo", ⟨[("region", "r")]⟩)]⟩⟩ "foo"
    (ConfigProfile.ofProperties ⟨[("region", "r")]⟩) (by decide)

/-- C5: `region()` and `credential_process()` look up the fixed keys
`region` and `credential_process`; an absent key yields none, and an absent
section makes `profile(name)` yield none — all results are optional values,
never errors. -/
theorem accessors_fixed_keys_absent_none :
    (∀ p : ConfigProfile, p.region = p.properties.get "region")
    ∧ (∀ p : ConfigProfile, p.credential_process = p.properties.get "credential_process")
    ∧ (∀ p : ConfigProfile, (∀ kv ∈ p.properties.entries, kv.1 ≠ "region") → p.region = none)
    ∧ (∀ p : ConfigProfile,
        (∀ kv ∈ p.properties.entries, kv.1 ≠ "credential_process") →
        p.credential_process = none)
    ∧ (∀ (c : ConfigFile) (n : String),
        (∀ s ∈ c.ini.sections, s.1 ≠ some n ∧ s.1 ≠ some ("profile " ++ n)) →
        c.profile n = none) := by
  refine ⟨fun _ => rfl, fun _ => rfl, ?_, ?_, ?_⟩
  · intro p h
    exact Properties.get_eq_none p.properties "region" h
  · intro p h
    exact Properties.get_eq_none p.properties "credential_process" h
  · intro c n h
    unfold ConfigFile.profile
    rw [Ini.sectionNamed_eq_none c.ini n (fun s hs => (h s hs).1),
      Ini.sectionNamed_eq_none c.ini ("profile " ++ n) (fun s hs => (h s hs).2)]
    rfl

/-- Witness for C5: the absence clauses applied at an empty profile and an
empty store. -/
theorem accessors_fixed_keys_absent_none_witness :
    ConfigProfile.region ⟨⟨[]⟩⟩ = none ∧ ConfigFile.profile ⟨⟨[]⟩⟩ "z" = none :=
  ⟨accessors_fixed_keys_absent_none.2.2.1 ⟨⟨[]⟩⟩ (by simp),
    accessors_fixed_keys_absent_none.2.2.2.2 ⟨⟨[]⟩⟩ "z" (by simp)⟩

/-- One read-only operation on a store: the methods the claims cover, with
profile accessors applied to the profile a lookup yields. -/
inductive ConfigOp where
  | profileOf (name : String)
  | defaultProfileOf
  | regionOf (name : String)
  | credentialProcessOf (name : String)
deriving DecidableEq

/-- What one operation returns. -/
inductive ConfigObs where
  | profileRes (r : Option ConfigProfile)
  | stringRes (r : Option String)
deriving DecidableEq

/-- Runs one method on the store, returning its result and the store it
leaves behind: every method takes the store by shared reference, so the
parsed contents pass through unchanged. -/
def ConfigFile.runOp (c : ConfigFile) : ConfigOp → ConfigObs × ConfigFile
  | .profileOf n => (.profileRes (c.profile n), c)
  | .defaultProfileOf => (.profileRes c.default_profile, c)
  | .regionOf n => (.stringRes ((c.profile n).bind ConfigProfile.region), c)
  | .credentialProcessOf n => (.stringRes ((c.profile n).bind ConfigProfile.credential_process), c)

/-- Runs a sequence of methods, threading the store through. -/
def ConfigFile.runOps (c : ConfigFile) : List ConfigOp → List ConfigObs × ConfigFile
  | [] => ([], c)
  | op :: rest =>
    let r := c.runOp op
    let rr := r.2.runOps rest
    (r.1 :: rr.1, rr.2)

/-- C6: a store is immutable after construction — any sequence of operations
leaves the parsed contents unchanged, so an operation repeated after any
other operations returns the same result as on the fresh store. -/
theorem config_file_immutable (c : ConfigFile) (ops : List ConfigOp) (op : ConfigOp) :
    (c.runOps ops).2 = c ∧ ((c.runOps ops).2.runOp op).1 = (c.runOp op).1 := by
  have hstate : ∀ (l : List ConfigOp) (d : ConfigFile), (d.runOps l).2 = d := by
    intro l
    induction l with
    | nil => intro d; rfl
    | cons o rest ih =>
      intro d
      show ((d.runOp o).2.runOps rest).2 = d
      have hop : (d.runOp o).2 = d := by cases o <;> rfl
      rw [hop, ih d]
  refine ⟨hstate ops c, ?_⟩
  rw [hstate ops c]

/-- Witness for C6 at a concrete store and operation sequence. -/
theorem config_file_immutable_witness :
    (bothFormsStore.runOps [.profileOf "x", .regionOf "x"]).2 = bothFormsStore
      ∧ ((bothFormsStore.runOps [.profileOf "x", .regionOf "x"]).2.runOp
          (.profileOf "x")).1 = (bothFormsStore.runOp (.profileOf "x")).1 :=
  config_file_immutable bothFormsStore [.profileOf "x", .regionOf "x"] (.profileOf "x")

/-- C7: `new_default` parses the file at the resolved default location: the
`AWS_CONFIG_FILE` override when set, and otherwise the `.aws/config` path
under the home directory; either way it equals an explicit `new` at that
path. -/
theorem new_default_resolved_location (env : Env) (fs : String → Except String Ini) :
    (∀ p, env.aws_config_file = some p →
      ConfigFile.new_default env fs = ConfigFile.new fs p)
    ∧ (∀ h, env.aws_config_file = none → env.home = some h →
      ConfigFile.new_default env fs = ConfigFile.new fs (h ++ "/.aws/config")) := by
  constructor
  · intro p hp
    unfold ConfigFile.new_default default_config_location
    rw [hp]
  · intro h hn hh
    unfold ConfigFile.new_default default_config_location
    rw [hn, hh]

/-- Witness for C7: both resolution branches at concrete environments. -/
theorem new_default_resolved_location_witness :
    ConfigFile.new_default ⟨some "override.ini", some "/home/u"⟩ failingFS
      = ConfigFile.new failingFS "override.ini"
    ∧ ConfigFile.new_default ⟨none, some "/home/u"⟩ failingFS
      = ConfigFile.new failingFS ("/home/u" ++ "/.aws/config") :=
  ⟨(new_default_resolved_location ⟨some "override.ini", some "/home/u"⟩ failingFS).1
      "override.ini" rfl,
    (new_default_resolved_location ⟨none, some "/home/u"⟩ failingFS).2 "/home/u" rfl rfl⟩

/-- Modelled from the spec: the fixture `tests/sample-data/multiple_profile_config`
is not under `src/`. The spec gives its observable content — profiles `foo`
and `bar` with regions `us-east-3` and `us-east-4` — and states that config
files use the `profile <name>` section form. -/
def multiple_profile_config : Ini :=
  ⟨[(some "profile foo", ⟨[("region", "us-east-3")]⟩),
    (some "profile bar", ⟨[("region", "us-east-4")]⟩)]⟩

/-- Modelled from the spec: a file system holding only the fixture file. -/
def sample_fs : String → Except String Ini := fun loc =>
  if loc = "tests/sample-data/multiple_profile_config" then .ok multiple_profile_config
  else .error "No such file or directory"

/-- C8: loading the fixture succeeds, and the resulting store resolves
profile `foo` to region `us-east-3` and profile `bar` to region
`us-east-4`. -/
theorem multiple_profile_config_regions :
    ∃ c, ConfigFile.new sample_fs "tests/sample-data/multiple_profile_config" = .ok c
      ∧ (c.profile "foo").map ConfigProfile.region = some (some "us-east-3")
      ∧ (c.profile "bar").map ConfigProfile.region = some (some "us-east-4") :=
  ⟨⟨multiple_profile_config⟩, by rfl, by decide, by decide⟩

/-- A store whose only section has two spaces after the word profile. -/
def twoSpaceStore : ConfigFile :=
  ⟨⟨[(some "profile  x", ⟨[("region", "r")]⟩)]⟩⟩

/-- A store whose only section is doubly prefixed. -/
def doubleNameStore : ConfigFile :=
  ⟨⟨[(some "profile profile x", ⟨[("region", "r")]⟩)]⟩⟩

/-- C10: with no bare section, `profile(name)` is exactly the lookup of the
single-spaced `profile name` section; a two-space spelling is never found,
and a name itself starting with the word profile can match a doubly
prefixed section. -/
theorem fallback_exact_single_space :
    (∀ (c : ConfigFile) (n : String), c.ini.sectionNamed n = none →
      c.profile n = (c.ini.sectionNamed ("profile " ++ n)).map ConfigProfile.ofProperties)
    ∧ twoSpaceStore.profile "x" = none
    ∧ doubleNameStore.profile "profile x"
      = some (ConfigProfile.ofProperties ⟨[("region", "r")]⟩) := by
  refine ⟨?_, by decide, by decide⟩
  intro c n h
  unfold ConfigFile.profile
  rw [h]
  rfl

/-- Witness for C10: the general clause applied at the two-space store. -/
theorem fallback_exact_single_space_witness :
    twoSpaceStore.profile "x"
      = (twoSpaceStore.ini.sectionNamed ("profile " ++ "x")).map ConfigProfile.ofProperties :=
  fallback_exact_single_space.1 twoSpaceStore "x" (by decide)
